import Mathlib

/-!
Verification of the photo-org search core: cursor codec (`app/core/pagination.py`),
filter compilation and keyset pagination (`app/repositories/photos_repo.py`,
`app/repositories/query_builder.py`), facet aggregation (`app/services/facets.py`,
`app/domain/facets.py`) and the page-limit policy (`app/schemas/search_request.py`,
`app/services/search_service.py`).

Strings are modelled as lists of characters, byte strings (photo identifiers
travel through the codec as UTF-8 bytes) as lists of naturals below 256.
Python `datetime` values are modelled as a component structure with an optional
UTC offset in minutes; `None` tzinfo is a missing offset.  SQL row sets are
lists, `ORDER BY`/`WHERE`/`LIMIT` are sorting, filtering and prefix-taking over
them; `NULL` column values are `Option.none`.
-/

namespace PhotoOrg

/-! ### Calendar arithmetic (proleptic Gregorian, as Python's datetime) -/

def isLeap (y : Nat) : Bool := (y % 4 == 0 && y % 100 != 0) || y % 400 == 0

def daysInMonth (y : Nat) (m : Nat) : Nat :=
  if m = 2 then (if isLeap y then 29 else 28)
  else if m = 4 ∨ m = 6 ∨ m = 9 ∨ m = 11 then 30 else 31

/-- Days from 1970-01-01 to year/month/day (civil calendar, floor-division form). -/
def daysFromCivil (y : Int) (m d : Nat) : Int :=
  let y' : Int := if m ≤ 2 then y - 1 else y
  let era : Int := Int.fdiv y' 400
  let yoe : Nat := (y' - era * 400).toNat
  let mp : Nat := (m + 9) % 12
  let doy : Nat := (153 * mp + 2) / 5 + d - 1
  let doe : Nat := yoe * 365 + yoe / 4 - yoe / 100 + doy
  era * 146097 + (doe : Int) - 719468

/-- Inverse of `daysFromCivil`: civil date of a day count from the epoch. -/
def civilFromDays (z0 : Int) : Int × Nat × Nat :=
  let z : Int := z0 + 719468
  let era : Int := Int.fdiv z 146097
  let doe : Nat := (z - era * 146097).toNat
  let yoe : Nat := (doe - doe / 1460 + doe / 36524 - doe / 146096) / 365
  let doy : Nat := doe - (365 * yoe + yoe / 4 - yoe / 100)
  let mp : Nat := (5 * doy + 2) / 153
  let d : Nat := doy - (153 * mp + 2) / 5 + 1
  let m : Nat := if mp < 10 then mp + 3 else mp - 9
  ((if m ≤ 2 then (yoe : Int) + era * 400 + 1 else (yoe : Int) + era * 400), m, d)

/-- Python `datetime`: wall-clock components plus optional UTC offset (minutes).
`tzMin = none` models a naive datetime (`tzinfo is None`). -/
structure DateTime where
  year : Nat
  month : Nat
  day : Nat
  hour : Nat
  minute : Nat
  second : Nat
  micro : Nat
  tzMin : Option Int
deriving DecidableEq

/-- Microseconds since the epoch of the instant a datetime denotes
(a naive datetime is read as UTC, as `iso_utc` arranges before converting). -/
def DateTime.instantMicro (t : DateTime) : Int :=
  ((daysFromCivil t.year t.month t.day) * 86400
    + t.hour * 3600 + t.minute * 60 + t.second
    - (t.tzMin.getD 0) * 60) * 1000000 + t.micro

/-- UTC datetime of an instant given in microseconds since the epoch. -/
def utcOfInstant (i : Int) : DateTime :=
  let micro : Nat := (Int.emod i 1000000).toNat
  let secs : Int := Int.fdiv i 1000000
  let days : Int := Int.fdiv secs 86400
  let sod : Nat := (secs - days * 86400).toNat
  let c := civilFromDays days
  ⟨c.1.toNat, c.2.1, c.2.2, sod / 3600, sod % 3600 / 60, sod % 60, micro, some 0⟩

/-- `dt.astimezone(timezone.utc)`: when the offset is already zero the wall
components are unchanged; otherwise the instant is converted through the epoch. -/
def astimezoneUTC (t : DateTime) : DateTime :=
  if t.tzMin = some 0 then t else utcOfInstant t.instantMicro

/-- The normalisation performed by `iso_utc` before rendering: a naive datetime
gets `tzinfo=timezone.utc` attached (`dt.replace(tzinfo=timezone.utc)`), then
`astimezone(timezone.utc)` is applied. -/
def utcNormalize (t : DateTime) : DateTime :=
  astimezoneUTC (if t.tzMin = none then { t with tzMin := some 0 } else t)

/-- Component ranges accepted by Python's `datetime` constructor. -/
def ValidDT (t : DateTime) : Prop :=
  1 ≤ t.year ∧ t.year ≤ 9999 ∧ 1 ≤ t.month ∧ t.month ≤ 12 ∧
  1 ≤ t.day ∧ t.day ≤ daysInMonth t.year t.month ∧
  t.hour < 24 ∧ t.minute < 60 ∧ t.second < 60 ∧ t.micro < 1000000

instance (t : DateTime) : Decidable (ValidDT t) := by
  unfold ValidDT; infer_instance

/-! ### Decimal digit rendering and parsing -/

def digitChar (n : Nat) : Char := Char.ofNat (48 + n)

def digitVal (c : Char) : Nat := c.toNat - 48

def isDigitB (c : Char) : Bool := 48 ≤ c.toNat && c.toNat ≤ 57

/-- Zero-padded fixed-width decimal rendering (`%04d` etc.), most significant first. -/
def pad : Nat → Nat → List Char
  | 0, _ => []
  | k+1, n => digitChar (n / 10 ^ k) :: pad k (n % 10 ^ k)

/-- Parse exactly `k` decimal digits, accumulating into `acc`. -/
def pDigitsAux : Nat → Nat → List Char → Option (Nat × List Char)
  | 0, acc, cs => some (acc, cs)
  | k+1, acc, c :: cs => if isDigitB c then pDigitsAux k (acc * 10 + digitVal c) cs else none
  | _+1, _, [] => none

def pDigits (k : Nat) (cs : List Char) : Option (Nat × List Char) := pDigitsAux k 0 cs

def pChar (c : Char) : List Char → Option (List Char)
  | d :: cs => if d = c then some cs else none
  | [] => none

/-! ### ISO-8601 rendering (`iso_utc`) and parsing (`datetime.fromisoformat`) -/

/-- The date-time body of `isoformat()` with an abstract tail holding the
rendered offset (`['Z']` after the textual replace, `+00:00` before it). -/
def isoCore (t : DateTime) (tail : List Char) : List Char :=
  pad 4 t.year ++ '-' :: (pad 2 t.month ++ '-' :: (pad 2 t.day ++
    'T' :: (pad 2 t.hour ++ ':' :: (pad 2 t.minute ++ ':' :: (pad 2 t.second ++
      ((if t.micro = 0 then [] else '.' :: pad 6 t.micro) ++ tail))))))

/-- Render UTC components as `datetime.isoformat()` does, with the final
`+00:00` already replaced by `Z` (in `iso_utc` the replace is textual, but the
only `+` in the rendered string is the one starting the offset, so rendering
with a literal `Z` is the same function).  The microsecond field is included
only when non-zero, exactly as `isoformat()` does. -/
def isoChars (t : DateTime) : List Char := isoCore t ['Z']

/-- `iso_utc` from `app/core/pagination.py`: attach UTC to a naive value,
normalise to UTC, render ISO-8601 with a trailing `Z`. -/
def iso_utc (t : DateTime) : List Char := isoChars (utcNormalize t)

/-- Range checks done by the `datetime` constructor when `fromisoformat` builds
its result; out-of-range components raise `ValueError` (here: `none`). -/
def mkValid (y mo d h mi s us : Nat) (tz : Option Int) : Option DateTime :=
  if 1 ≤ y ∧ y ≤ 9999 ∧ 1 ≤ mo ∧ mo ≤ 12 ∧ 1 ≤ d ∧ d ≤ daysInMonth y mo ∧
     h < 24 ∧ mi < 60 ∧ s < 60 ∧ us < 1000000
  then some ⟨y, mo, d, h, mi, s, us, tz⟩ else none

/-- Parse the optional fractional-second part: `.ffffff` or nothing. -/
def pFrac (cs : List Char) : Option (Nat × List Char) :=
  match cs with
  | '.' :: rest => pDigits 6 rest
  | rest => some (0, rest)

/-- Parse the optional UTC offset: `±HH:MM` or end of input; result is the
offset in minutes (`none` = naive). -/
def pOffset (cs : List Char) : Option (Option Int) :=
  match cs with
  | [] => some none
  | sign :: r1 =>
    if sign = '+' ∨ sign = '-' then
      match pDigits 2 r1 with
      | none => none
      | some (oh, r2) =>
        match pChar ':' r2 with
        | none => none
        | some r3 =>
          match pDigits 2 r3 with
          | none => none
          | some (om, r4) =>
            if r4 = [] ∧ oh < 24 ∧ om < 60 then
              some (some ((if sign = '-' then -1 else 1) * ((oh : Int) * 60 + om)))
            else none
    else none

/-- Parse `HH:MM:SS[.ffffff][±HH:MM]` after the date separator. -/
def pTime (y mo d : Nat) (cs : List Char) : Option DateTime :=
  (pDigits 2 cs).bind (fun ph =>
    (pChar ':' ph.2).bind (fun r2 =>
      (pDigits 2 r2).bind (fun pmi =>
        (pChar ':' pmi.2).bind (fun r4 =>
          (pDigits 2 r4).bind (fun ps =>
            (pFrac ps.2).bind (fun pus =>
              (pOffset pus.2).bind (fun tz =>
                mkValid y mo d ph.1 pmi.1 ps.1 pus.1 tz)))))))

/-- `datetime.fromisoformat`, restricted to the shapes the codec can meet:
`YYYY-MM-DD[THH:MM:SS[.ffffff]][±HH:MM]`.  Anything else is a parse failure
(`ValueError` in the source). -/
def fromisoformat (cs : List Char) : Option DateTime :=
  (pDigits 4 cs).bind (fun py =>
    (pChar '-' py.2).bind (fun r2 =>
      (pDigits 2 r2).bind (fun pmo =>
        (pChar '-' pmo.2).bind (fun r4 =>
          (pDigits 2 r4).bind (fun pd =>
            match pd.2 with
            | [] => mkValid py.1 pmo.1 pd.1 0 0 0 0 none
            | c :: r6 =>
              if c = 'T' ∨ c = ' ' then pTime py.1 pmo.1 pd.1 r6 else none)))))

/-- `ts_s.replace("Z", "+00:00")` on the timestamp half of a decoded cursor. -/
def replaceZ (cs : List Char) : List Char :=
  cs.flatMap (fun c => if c = 'Z' then ['+', '0', '0', ':', '0', '0'] else [c])

/-! ### URL-safe base64 (`base64.urlsafe_b64encode` / `urlsafe_b64decode`)
Bytes are naturals below 256. -/

def b64Char (i : Nat) : Char :=
  if i < 26 then Char.ofNat (65 + i)
  else if i < 52 then Char.ofNat (97 + (i - 26))
  else if i < 62 then Char.ofNat (48 + (i - 52))
  else if i = 62 then '-' else '_'

def b64Val (c : Char) : Option Nat :=
  if 65 ≤ c.toNat ∧ c.toNat ≤ 90 then some (c.toNat - 65)
  else if 97 ≤ c.toNat ∧ c.toNat ≤ 122 then some (c.toNat - 97 + 26)
  else if 48 ≤ c.toNat ∧ c.toNat ≤ 57 then some (c.toNat - 48 + 52)
  else if c = '-' then some 62
  else if c = '_' then some 63
  else none

def b64encode : List Nat → List Char
  | a :: b :: c :: rest =>
      b64Char (a / 4) :: b64Char ((a % 4) * 16 + b / 16) ::
        b64Char ((b % 16) * 4 + c / 64) :: b64Char (c % 64) :: b64encode rest
  | [a, b] => [b64Char (a / 4), b64Char ((a % 4) * 16 + b / 16), b64Char ((b % 16) * 4), '=']
  | [a] => [b64Char (a / 4), b64Char ((a % 4) * 16), '=', '=']
  | [] => []

/-- Characters `b64decode` keeps: alphabet members and padding; everything else
is discarded before decoding (CPython's default `validate=False`). -/
def b64Keep (c : Char) : Bool := (b64Val c).isSome || c = '='

/-- Decode groups of four sextet characters; padding only in a final group. -/
def b64Groups : List Char → Option (List Nat)
  | [] => some []
  | w :: x :: y :: z :: rest =>
      match b64Val w, b64Val x with
      | some wv, some xv =>
        if y = '=' then
          if z = '=' ∧ rest = [] then some [wv * 4 + xv / 16] else none
        else
          match b64Val y with
          | some yv =>
            if z = '=' then
              if rest = [] then some [wv * 4 + xv / 16, (xv % 16) * 16 + yv / 4] else none
            else
              match b64Val z with
              | some zv =>
                match b64Groups rest with
                | some tail => some ((wv * 4 + xv / 16) :: ((xv % 16) * 16 + yv / 4) ::
                    ((yv % 4) * 64 + zv) :: tail)
                | none => none
              | none => none
          | none => none
      | _, _ => none
  | _ => none

/-- `base64.urlsafe_b64decode`: discard foreign characters, require a length
that is a multiple of four, decode; failure is `binascii.Error`. -/
def b64decode (cs : List Char) : Option (List Nat) :=
  let kept := cs.filter b64Keep
  if kept.length % 4 = 0 then b64Groups kept else none

/-! ### The cursor codec (`app/core/pagination.py`) -/

/-- `encode_cursor`: the payload is the UTF-8 bytes of
`f"{iso_utc(ts)}|{photo_id}"`; the ISO half is pure ASCII so its bytes are its
character codes, and the photo id travels as its UTF-8 bytes `pid`. -/
def encode_cursor (t : DateTime) (pid : List Nat) : List Char :=
  b64encode ((iso_utc t).map Char.toNat ++ 124 :: pid)

/-- `raw.split("|", 1)`: split at the first `|` byte (UTF-8 never hides a
`0x7C` inside a multi-byte sequence); no separator is a `ValueError`. -/
def splitBar : List Nat → Option (List Nat × List Nat)
  | [] => none
  | b :: rest =>
    if b = 124 then some ([], rest)
    else (splitBar rest).map (fun p => (b :: p.1, p.2))

/-- The Python exceptions `decode_cursor` can raise: `binascii.Error` from
`urlsafe_b64decode`, `ValueError` from tuple unpacking of `split` or from
`fromisoformat`.  There is no `MalformedCursor` class anywhere in the source. -/
inductive PyError
  | valueError
  | binasciiError
deriving DecidableEq

deriving instance DecidableEq for Except

/-- `decode_cursor` with its failure modes. -/
def decodeCursorE (cs : List Char) : Except PyError (DateTime × List Nat) :=
  match b64decode cs with
  | none => .error .binasciiError
  | some bytes =>
    match splitBar bytes with
    | none => .error .valueError
    | some (l, r) =>
      match fromisoformat (replaceZ (l.map Char.ofNat)) with
      | none => .error .valueError
      | some t => .ok (t, r)

/-- `decode_cursor` as a partial function (exceptions collapsed to `none`). -/
def decode_cursor (cs : List Char) : Option (DateTime × List Nat) :=
  (decodeCursorE cs).toOption

/-! ### Data model: the three persistence relations -/

structure PhotoRow where
  photo_id : List Nat
  path : List Char
  ext : Option (List Char)
  camera_make : Option (List Char)
  orientation : Option (List Char)
  shot_ts : Option DateTime
  filesize : Int
  sha256 : List Char
  phash : List Char
deriving DecidableEq

structure FaceRow where
  photo_id : List Nat
  person_id : Option (List Char)
deriving DecidableEq

structure TagRow where
  photo_id : List Nat
  tag : List Char
deriving DecidableEq

structure DB where
  photos : List PhotoRow
  faces : List FaceRow
  photo_tags : List TagRow

/-! ### Request schemas (`app/schemas/search_request.py`, `app/core/enums.py`) -/

inductive FilesizeRange
  | small
  | medium
  | large
deriving DecidableEq

/-- `FilesizeRange.bounds` from `app/core/enums.py`. -/
def FilesizeRange.bounds : FilesizeRange → Int × Int
  | .small => (0, 1000000)
  | .medium => (1000000, 5000000)
  | .large => (5000000, 10000000000)

/-- A date filter bound, as the `YYYY-MM-DD` triple of a non-empty string. -/
structure DateFilter where
  from_ : Option (Nat × Nat × Nat)
  to_ : Option (Nat × Nat × Nat)
deriving DecidableEq

structure SearchFilters where
  date : Option DateFilter := none
  camera_make : Option (List (List Char)) := none
  extension : Option (List (List Char)) := none
  orientation : Option (List (List Char)) := none
  filesize_range : Option FilesizeRange := none
  has_faces : Option Bool := none
  tags : Option (List (List Char)) := none
  people : Option (List (List Char)) := none

inductive SortBy
  | shot_ts
  | relevance
deriving DecidableEq

inductive SortDir
  | asc
  | desc
deriving DecidableEq

structure SortSpec where
  by_ : SortBy := .shot_ts
  dir : SortDir := .desc
deriving DecidableEq

structure PageSpec where
  limit : Option Int := some 50
  cursor : Option (List Char) := none

/-! ### Filter compilation (`_apply_filters` / `build_filters`) -/

def lowerChars (cs : List Char) : List Char := cs.map Char.toLower

def leadsWith : List Char → List Char → Bool
  | [], _ => true
  | _ :: _, [] => false
  | a :: as, b :: bs => a == b && leadsWith as bs

/-- Substring test: SQL `LIKE '%needle%'` on already-lowercased operands. -/
def containsSub (needle : List Char) : List Char → Bool
  | [] => needle.isEmpty
  | c :: rest => leadsWith needle (c :: rest) || containsSub needle rest

def isWs (c : Char) : Bool := c == ' ' || c == '\t' || c == '\n' || c == '\r'

def splitWsAux : List Char → List Char → List (List Char)
  | [], acc => if acc.isEmpty then [] else [acc.reverse]
  | c :: rest, acc =>
    if isWs c then
      (if acc.isEmpty then splitWsAux rest [] else acc.reverse :: splitWsAux rest [])
    else splitWsAux rest (c :: acc)

/-- Python `str.split()`: split on whitespace runs, no empty tokens. -/
def splitWs (cs : List Char) : List (List Char) := splitWsAux cs []

def dateLowerBound (ymd : Nat × Nat × Nat) : DateTime :=
  ⟨ymd.1, ymd.2.1, ymd.2.2, 0, 0, 0, 0, some 0⟩

def dateUpperBound (ymd : Nat × Nat × Nat) : DateTime :=
  ⟨ymd.1, ymd.2.1, ymd.2.2, 23, 59, 59, 0, some 0⟩

/-- Date-range clause: `shot_ts >= 'from'T00:00:00Z` / `<= 'to'T23:59:59Z`
(comparison with a `NULL` column never holds). -/
def dateFilterOk (d : Option DateFilter) (ts : Option DateTime) : Bool :=
  match d with
  | none => true
  | some df =>
    (match df.from_ with
     | none => true
     | some ymd =>
       match ts with
       | none => false
       | some t => decide ((dateLowerBound ymd).instantMicro ≤ t.instantMicro)) &&
    (match df.to_ with
     | none => true
     | some ymd =>
       match ts with
       | none => false
       | some t => decide (t.instantMicro ≤ (dateUpperBound ymd).instantMicro))

/-- SQL `col IN (...)`: a `NULL` column value is never a member. -/
def memOpt (v : Option (List Char)) (vals : List (List Char)) : Bool :=
  match v with
  | none => false
  | some s => vals.contains s

/-- A plain list dimension: absent or empty (falsy) adds no condition. -/
def listFilterOk (dim : Option (List (List Char))) (v : Option (List Char)) : Bool :=
  match dim with
  | some (x :: xs) => memOpt v (x :: xs)
  | _ => true

/-- Half-open filesize clause: `filesize >= lo AND filesize < hi`. -/
def filesizeOk (fr : Option FilesizeRange) (fs : Int) : Bool :=
  match fr with
  | none => true
  | some r => decide (r.bounds.1 ≤ fs) && decide (fs < r.bounds.2)

/-- `has_faces is True`: existential join against `faces`. -/
def hasFacesOk (db : DB) (hf : Option Bool) (pid : List Nat) : Bool :=
  match hf with
  | some true => db.faces.any (fun fr => fr.photo_id == pid)
  | _ => true

/-- People dimension: some face of the record names a person in the set. -/
def peopleOk (db : DB) (dim : Option (List (List Char))) (pid : List Nat) : Bool :=
  match dim with
  | some (x :: xs) =>
    db.faces.any (fun fr => fr.photo_id == pid &&
      (match fr.person_id with
       | some p => (x :: xs).contains p
       | none => false))
  | _ => true

/-- Tags dimension: some tag association of the record is in the set. -/
def tagsFilterOk (db : DB) (dim : Option (List (List Char))) (pid : List Nat) : Bool :=
  match dim with
  | some (x :: xs) =>
    db.photo_tags.any (fun tr => tr.photo_id == pid && (x :: xs).contains tr.tag)
  | _ => true

/-- Text query: path contains the first token, or some tag of the record
contains some token (case-insensitive). -/
def textOk (db : DB) (q : Option (List Char)) (r : PhotoRow) : Bool :=
  match q with
  | none => true
  | some qs =>
    if qs.isEmpty then true
    else
      match (splitWs (lowerChars qs)).filter (fun t => !t.isEmpty) with
      | [] => true
      | t0 :: ts =>
        containsSub t0 (lowerChars r.path) ||
        db.photo_tags.any (fun tr => tr.photo_id == r.photo_id &&
          (t0 :: ts).any (fun t => containsSub t (lowerChars tr.tag)))

/-- The conjunction of all filter clauses (`_apply_filters`, equally
`build_filters` in `query_builder.py` — the two variants build the same
conditions).  Note: no dimension has any cardinality cap. -/
def photoMatches (db : DB) (f : SearchFilters) (q : Option (List Char)) (r : PhotoRow) : Bool :=
  dateFilterOk f.date r.shot_ts &&
  listFilterOk f.camera_make r.camera_make &&
  listFilterOk f.extension r.ext &&
  listFilterOk f.orientation r.orientation &&
  filesizeOk f.filesize_range r.filesize &&
  hasFacesOk db f.has_faces r.photo_id &&
  peopleOk db f.people r.photo_id &&
  tagsFilterOk db f.tags r.photo_id &&
  textOk db q r

def apply_filters (db : DB) (f : SearchFilters) (q : Option (List Char)) : List PhotoRow :=
  db.photos.filter (photoMatches db f q)

/-- `get_filtered_photo_ids`: ids of the filtered population (facet input). -/
def get_filtered_photo_ids (db : DB) (f : SearchFilters) (q : Option (List Char)) :
    List (List Nat) :=
  (apply_filters db f q).map (·.photo_id)

/-! ### Sorting and keyset pagination -/

/-- `ORDER BY` comparison of the `shot_ts` column; SQLite sorts `NULL`
before every value. -/
def tsKeyLt : Option DateTime → Option DateTime → Bool
  | none, none => false
  | none, some _ => true
  | some _, none => false
  | some a, some b => decide (a.instantMicro < b.instantMicro)

def tsKeyEq : Option DateTime → Option DateTime → Bool
  | none, none => true
  | some a, some b => a.instantMicro == b.instantMicro
  | _, _ => false

/-- Lexicographic byte-string comparison (SQLite text ordering). -/
def bytesLt : List Nat → List Nat → Bool
  | [], [] => false
  | [], _ :: _ => true
  | _ :: _, [] => false
  | a :: as, b :: bs => decide (a < b) || (a == b && bytesLt as bs)

/-- `a` sorts no later than `b` under `ORDER BY shot_ts DESC, photo_id DESC`. -/
def descLe (a b : PhotoRow) : Bool :=
  tsKeyLt b.shot_ts a.shot_ts ||
    (tsKeyEq a.shot_ts b.shot_ts && (bytesLt b.photo_id a.photo_id || a.photo_id == b.photo_id))

/-- `a` sorts no later than `b` under `ORDER BY shot_ts ASC, photo_id ASC`. -/
def ascLe (a b : PhotoRow) : Bool :=
  tsKeyLt a.shot_ts b.shot_ts ||
    (tsKeyEq a.shot_ts b.shot_ts && (bytesLt a.photo_id b.photo_id || a.photo_id == b.photo_id))

/-- `_apply_sorting`: `shot_ts` follows the requested direction; `relevance`
falls back to descending `shot_ts` order regardless of the direction. -/
def apply_sorting (sort : SortSpec) : PhotoRow → PhotoRow → Bool :=
  match sort.by_ with
  | .shot_ts =>
    match sort.dir with
    | .desc => descLe
    | .asc => ascLe
  | .relevance => descLe

def insertOrd (le : α → α → Bool) (x : α) : List α → List α
  | [] => [x]
  | y :: ys => if le x y then x :: y :: ys else y :: insertOrd le x ys

def sortOrd (le : α → α → Bool) : List α → List α
  | [] => []
  | x :: xs => insertOrd le x (sortOrd le xs)

/-- The continuation clause added by `_apply_pagination` when a cursor is
present; it follows `sort.dir` only.  A `NULL` `shot_ts` satisfies neither
inequality. -/
def contClause (dir : SortDir) (lastTs : DateTime) (lastPid : List Nat) (r : PhotoRow) : Bool :=
  match r.shot_ts with
  | none => false
  | some ts =>
    match dir with
    | .desc =>
      decide (ts.instantMicro < lastTs.instantMicro) ||
        (ts.instantMicro == lastTs.instantMicro && bytesLt r.photo_id lastPid)
    | .asc =>
      decide (lastTs.instantMicro < ts.instantMicro) ||
        (ts.instantMicro == lastTs.instantMicro && bytesLt lastPid r.photo_id)

/-- `page.limit or 50` (`_apply_pagination`, and identically
`SearchService.execute`): `None` and `0` are falsy and fall back to the
default 50; any other integer is used as given, with no upper cap. -/
def effectiveLimit (page : PageSpec) : Int :=
  match page.limit with
  | none => 50
  | some n => if n = 0 then 50 else n

/-- SQL `LIMIT n` (SQLite semantics: a negative limit means no limit). -/
def applyLimit (n : Int) (rows : List α) : List α :=
  if n < 0 then rows else rows.take n.toNat

/-! ### Hydration and the search pipeline (`PhotosRepository.search_photos`) -/

structure HitItem where
  photo_id : List Nat
  path : List Char
  ext : List Char
  camera_make : Option (List Char)
  orientation : Option (List Char)
  shot_ts : Option (List Char)
  filesize : Int
  tags : List (List Char)
  people : List (List Char)
  faces : List (Option (List Char))
deriving DecidableEq

/-- Python truthiness of an optional string (`if r.person_id:`). -/
def truthyStr : Option (List Char) → Bool
  | some (_ :: _) => true
  | _ => false

/-- One row of `_hydrate_items`: lower-cased extension (`(r.ext or "").lower()`),
rendered `shot_ts`, tags, truthy person ids, and all face annotations. -/
def hydrateRow (db : DB) (r : PhotoRow) : HitItem :=
  { photo_id := r.photo_id
    path := r.path
    ext := lowerChars (r.ext.getD [])
    camera_make := r.camera_make
    orientation := r.orientation
    shot_ts := r.shot_ts.map iso_utc
    filesize := r.filesize
    tags := (db.photo_tags.filter (fun tr => tr.photo_id == r.photo_id)).map (·.tag)
    people := ((db.faces.filter (fun fr => fr.photo_id == r.photo_id)).filter
      (fun fr => truthyStr fr.person_id)).map (fun fr => fr.person_id.getD [])
    faces := (db.faces.filter (fun fr => fr.photo_id == r.photo_id)).map (·.person_id) }

def hydrate_items (db : DB) (rows : List PhotoRow) : List HitItem :=
  rows.map (hydrateRow db)

/-- `_generate_cursor`: re-parse the last item's rendered `shot_ts` and encode
it with that item's id. -/
def generate_cursor (items : List HitItem) : Option (List Char) :=
  match items.getLast? with
  | none => none
  | some it =>
    match it.shot_ts with
    | none => none
    | some s =>
      match fromisoformat (replaceZ s) with
      | none => none
      | some dt => some (encode_cursor dt it.photo_id)

/-- Queries issued against the persistence layer, in execution order. -/
inductive QEvent
  | countQuery
  | mainQuery
  | tagsQuery
  | facesQuery
deriving DecidableEq

/-- The tail of `search_photos` after the continuation clause is settled:
limit, hydrate, derive the next cursor. -/
def finishSearch (db : DB) (rows : List PhotoRow) (page : PageSpec) (total : Nat) :
    List QEvent × Except PyError (List HitItem × Nat × Option (List Char)) :=
  let paged := applyLimit (effectiveLimit page) rows
  let items := hydrate_items db paged
  let nextCursor := if items.isEmpty then none else generate_cursor items
  ([.countQuery, .mainQuery] ++ (if paged.isEmpty then [] else [.tagsQuery, .facesQuery]),
    .ok (items, total, nextCursor))

/-- `PhotosRepository.search_photos`, with the trace of executed queries.
The total count runs before `_apply_pagination`, so a cursor decode failure
surfaces only after the count query has already executed. -/
def search_photos (db : DB) (f : SearchFilters) (sort : SortSpec) (page : PageSpec)
    (q : Option (List Char)) :
    List QEvent × Except PyError (List HitItem × Nat × Option (List Char)) :=
  let base := apply_filters db f q
  let total := base.length
  let sorted := sortOrd (apply_sorting sort) base
  match page.cursor with
  | none => finishSearch db sorted page total
  | some cur =>
    if cur.isEmpty then finishSearch db sorted page total
    else
      match decodeCursorE cur with
      | .error e => ([.countQuery], .error e)
      | .ok (lastTs, lastPid) =>
        finishSearch db (sorted.filter (contClause sort.dir lastTs lastPid)) page total

/-! ### Facets (`app/services/facets.py`, `app/domain/facets.py`) -/

/-- Rows feeding the date facet: `select shot_ts where photo_id in filt_ids`. -/
def dateFacetRows (db : DB) (ids : List (List Nat)) : List (Option DateTime) :=
  (db.photos.filter (fun r => ids.contains r.photo_id)).map (·.shot_ts)

/-- Day counter map of one month, keyed by day, in insertion order. -/
abbrev DayMap := List (Nat × Nat)

/-- Month entries of one year: month ↦ (count, days). -/
abbrev MonthMap := List (Nat × (Nat × DayMap))

/-- Year entries: year ↦ (count, months). -/
abbrev YearMap := List (Nat × (Nat × MonthMap))

def bumpDay (k : Nat) : DayMap → DayMap
  | [] => [(k, 1)]
  | (d, c) :: rest => if d = k then (d, c + 1) :: rest else (d, c) :: bumpDay k rest

def bumpMonth (m d : Nat) : MonthMap → MonthMap
  | [] => [(m, (1, [(d, 1)]))]
  | (m', (c, days)) :: rest =>
    if m' = m then (m', (c + 1, bumpDay d days)) :: rest
    else (m', (c, days)) :: bumpMonth m d rest

def bumpYear (y m d : Nat) : YearMap → YearMap
  | [] => [(y, (1, [(m, (1, [(d, 1)]))]))]
  | (y', (c, ms)) :: rest =>
    if y' = y then (y', (c + 1, bumpMonth m d ms)) :: rest
    else (y', (c, ms)) :: bumpYear y m d rest

/-- The accumulation loop of `date_facet`: rows that are not datetimes
(`NULL` timestamps) are skipped; each valid row bumps its year, month and
day counters. -/
def dateAccum (rows : List (Option DateTime)) : YearMap :=
  rows.foldl (fun acc o =>
    match o with
    | none => acc
    | some ts => bumpYear ts.year ts.month ts.day acc) []

structure DayNode where
  value : Nat
  count : Nat
deriving DecidableEq

structure MonthNode where
  value : Nat
  count : Nat
  days : List DayNode
deriving DecidableEq

structure YearNode where
  value : Nat
  count : Nat
  months : List MonthNode
deriving DecidableEq

/-- `sorted(...)` over the keys of an insertion-ordered map. -/
def sortPairs (ps : List (Nat × A)) : List (Nat × A) :=
  sortOrd (fun a b => Nat.ble a.1 b.1) ps

/-- `date_facet`: the year → month → day count tree, levels sorted by key. -/
def date_facet (rows : List (Option DateTime)) : List YearNode :=
  (sortPairs (dateAccum rows)).map (fun ye =>
    ⟨ye.1, ye.2.1, (sortPairs ye.2.2).map (fun me =>
      ⟨me.1, me.2.1, (sortPairs me.2.2).map (fun de => ⟨de.1, de.2⟩)⟩)⟩)

/-- `people_facet`: `count(distinct photo_id) group by person_id` over the
faces of the filtered population, keeping only truthy person ids. -/
def people_facet (faces : List FaceRow) (ids : List (List Nat)) :
    List (Option (List Char) × Nat) :=
  let rel := faces.filter (fun fr => ids.contains fr.photo_id)
  let groups := (rel.map (·.person_id)).dedup
  (groups.map (fun p =>
    (p, ((rel.filter (fun fr => fr.person_id == p)).map (·.photo_id)).dedup.length))).filter
    (fun e => truthyStr e.1)

/-- `tags_facet` (and the `TagsFacet` domain object, which runs the same
grouped distinct count): `count(distinct photo_id) group by tag`. -/
def tags_facet (photo_tags : List TagRow) (ids : List (List Nat)) :
    List (List Char × Nat) :=
  let rel := photo_tags.filter (fun tr => ids.contains tr.photo_id)
  let groups := (rel.map (·.tag)).dedup
  groups.map (fun t =>
    (t, ((rel.filter (fun tr => tr.tag == t)).map (·.photo_id)).dedup.length))

/-- Number of key groups with more than one member. -/
def multiGroupCount (keys : List (List Char)) : Nat :=
  (keys.dedup.filter (fun k => 1 < (keys.filter (fun x => x == k)).length)).length

/-- `duplicates_facet`: groups by `sha256` and by `phash` with count > 1. -/
def duplicates_facet (photos : List PhotoRow) (ids : List (List Nat)) : Nat × Nat :=
  let rel := photos.filter (fun r => ids.contains r.photo_id)
  (multiGroupCount (rel.map (·.sha256)), multiGroupCount (rel.map (·.phash)))

/-! ### Facet orchestration

The sub-computations run queries against the persistence collaborator and can
raise; they are therefore modelled as `Except` values.  What matters for the
error-handling contract is the control flow around them. -/

/-- `PhotosRepository.compute_facets`: the tags facet is computed first (via
the domain `TagsFacet`), then the result dict evaluates the date, people and
duplicates facets.  There is no `try`/`except`: the first failure propagates
and the whole call fails. -/
def compute_facets (tagsR : Except (List Char) T) (dateR : Except (List Char) D)
    (peopleR : Except (List Char) P) (dupR : Except (List Char) U) :
    Except (List Char) (D × P × T × U) :=
  tagsR.bind (fun t =>
    dateR.bind (fun d =>
      peopleR.bind (fun p =>
        dupR.map (fun u => (d, p, t, u)))))

/-- One registered facet of `FacetRegistry` with its (fallible) compute
function and the empty result `_get_empty_facet_result` substitutes. -/
structure FacetSpec (A : Type) where
  name : List Char
  compute : List (List Nat) → Except (List Char) A
  emptyResult : A

/-- `FacetRegistry.compute_all_facets`: every facet is computed under a
`try`/`except`; a failure is logged and replaced by the facet's empty result,
so the map always contains one entry per registered facet. -/
def compute_all_facets (fs : List (FacetSpec A)) (ids : List (List Nat)) :
    List (List Char × A) :=
  fs.map (fun f =>
    (f.name,
      match f.compute ids with
      | .ok r => r
      | .error _ => f.emptyResult))

/-! ### Hierarchy bookkeeping used to state conservation -/

def dayTotal (ds : DayMap) : Nat := (ds.map Prod.snd).sum

def monthTotal (ms : MonthMap) : Nat := (ms.map (fun e => e.2.1)).sum

def yearTotal (ys : YearMap) : Nat := (ys.map (fun e => e.2.1)).sum

/-- Every month entry's count equals the sum of its day counters. -/
def monthsOk (ms : MonthMap) : Prop := ∀ e ∈ ms, e.2.1 = dayTotal e.2.2

/-- Every year entry's count equals the sum of its month counts, and its
months are internally consistent. -/
def yearsOk (ys : YearMap) : Prop := ∀ e ∈ ys, e.2.1 = monthTotal e.2.2 ∧ monthsOk e.2.2

/-! ### Concrete fixtures for the spec scenarios -/

def mkPhoto (pid : List Nat) (ts : DateTime) (sha ph : List Char) : PhotoRow :=
  ⟨pid, [], none, none, none, some ts, 0, sha, ph⟩

def ts0601 : DateTime := ⟨2020, 6, 1, 0, 0, 0, 0, some 0⟩

def ts0602 : DateTime := ⟨2020, 6, 2, 0, 0, 0, 0, some 0⟩

def ts0701 : DateTime := ⟨2020, 7, 1, 0, 0, 0, 0, some 0⟩

/-- Three records dated 2020-06-01, 2020-06-02, 2020-07-01 (UTC). -/
def dbScenario : DB :=
  ⟨[mkPhoto [112, 49] ts0601 ['a'] ['x'],
    mkPhoto [112, 50] ts0602 ['b'] ['y'],
    mkPhoto [112, 51] ts0701 ['c'] ['z']], [], []⟩

def sortDesc : SortSpec := ⟨.shot_ts, .desc⟩

/-- The cursor page 1 hands out: `encode(2020-06-02T00:00:00Z, "p2")`. -/
def cursor0602 : List Char := encode_cursor ts0602 [112, 50]

/-- The cursor page 2 hands out: `encode(2020-06-01T00:00:00Z, "p1")`. -/
def cursor0601 : List Char := encode_cursor ts0601 [112, 49]

def tsJan1 : DateTime := ⟨2020, 1, 1, 0, 0, 0, 0, some 0⟩

def tsJan2 : DateTime := ⟨2020, 1, 2, 0, 0, 0, 0, some 0⟩

/-- Two records, used to separate relevance-sort from descending sort. -/
def dbPair : DB :=
  ⟨[mkPhoto [97] tsJan1 ['a'] ['x'], mkPhoto [98] tsJan2 ['b'] ['y']], [], []⟩

def cursorJan1 : List Char := encode_cursor tsJan1 [97]

/-- 101 tag values `t0 .. t100` (`[f"t{i}" for i in range(101)]`). -/
def tags101 : List (List Char) := (List.range 101).map (fun i => 't' :: Nat.toDigits 10 i)

/-- One record tagged `t5`. -/
def dbTagged : DB :=
  ⟨[mkPhoto [112, 49] ts0601 ['a'] ['x']], [], [⟨[112, 49], ['t', '5']⟩]⟩

/-! ### Digit and fixed-width rendering lemmas -/

theorem digit_facts : ∀ d < 10, digitVal (digitChar d) = d ∧ isDigitB (digitChar d) = true ∧
    (digitChar d).toNat ≤ 57 ∧ 48 ≤ (digitChar d).toNat := by decide

theorem lead_digit_lt {k n : Nat} (hn : n < 10 ^ (k + 1)) : n / 10 ^ k < 10 := by
  have h10 : n < 10 * 10 ^ k := by
    have : (10:Nat) ^ (k + 1) = 10 * 10 ^ k := by ring
    omega
  exact Nat.div_lt_iff_lt_mul (Nat.pos_pow_of_pos k (by norm_num)) |>.mpr h10

theorem pad_mem {k n : Nat} (hn : n < 10 ^ k) : ∀ c ∈ pad k n, ∃ d, d < 10 ∧ c = digitChar d := by
  induction k generalizing n with
  | zero => simp [pad]
  | succ k ih =>
    intro c hc
    rw [pad, List.mem_cons] at hc
    rcases hc with hc | hc
    · exact ⟨n / 10 ^ k, lead_digit_lt hn, hc⟩
    · exact ih (Nat.mod_lt _ (Nat.pos_pow_of_pos k (by norm_num))) c hc

theorem pDigitsAux_pad {k : Nat} : ∀ (n acc : Nat) (rest : List Char), n < 10 ^ k →
    pDigitsAux k acc (pad k n ++ rest) = some (acc * 10 ^ k + n, rest) := by
  induction k with
  | zero =>
    intro n acc rest hn
    interval_cases n
    simp [pad, pDigitsAux]
  | succ k ih =>
    intro n acc rest hn
    obtain ⟨hval, hdig, -, -⟩ := digit_facts (n / 10 ^ k) (lead_digit_lt hn)
    rw [pad, List.cons_append, pDigitsAux, if_pos hdig, hval,
      ih (n % 10 ^ k) _ rest (Nat.mod_lt _ (Nat.pos_pow_of_pos k (by norm_num)))]
    have harith : (acc * 10 + n / 10 ^ k) * 10 ^ k + n % 10 ^ k = acc * 10 ^ (k + 1) + n := by
      calc (acc * 10 + n / 10 ^ k) * 10 ^ k + n % 10 ^ k
          = acc * (10 ^ k * 10) + (10 ^ k * (n / 10 ^ k) + n % 10 ^ k) := by ring
        _ = acc * (10 ^ k * 10) + n := by rw [Nat.div_add_mod]
        _ = acc * 10 ^ (k + 1) + n := by rw [pow_succ]
    rw [harith]

theorem pDigits_pad {k n : Nat} (rest : List Char) (hn : n < 10 ^ k) :
    pDigits k (pad k n ++ rest) = some (n, rest) := by
  rw [pDigits, pDigitsAux_pad n 0 rest hn, Nat.zero_mul, Nat.zero_add]

theorem pChar_cons (c : Char) (l : List Char) : pChar c (c :: l) = some l := by
  simp [pChar]

/-! ### ISO rendering facts -/

theorem daysInMonth_le31 (y m : Nat) : daysInMonth y m ≤ 31 := by
  unfold daysInMonth
  split
  · split <;> norm_num
  · split <;> norm_num

/-- The date-time body (offset excluded) uses only digits and `-`, `:`, `T`,
`.`: every code point is at most 84, in particular below the `|` separator
(124) and distinct from `Z` (90). -/
theorem isoCore_nil_le84 {t : DateTime} (hv : ValidDT t) : ∀ c ∈ isoCore t [], c.toNat ≤ 84 := by
  obtain ⟨-, hy, -, hmo, -, hd, hh, hmi, hs, hus⟩ := hv
  intro c hc
  have hpad : ∀ {k n : Nat}, n < 10 ^ k → c ∈ pad k n → c.toNat ≤ 84 := by
    intro k n hn hm
    obtain ⟨d, hd10, rfl⟩ := pad_mem hn c hm
    obtain ⟨-, -, hle, -⟩ := digit_facts d hd10
    omega
  have hy4 : t.year < 10 ^ 4 := by norm_num; omega
  have hmo2 : t.month < 10 ^ 2 := by norm_num; omega
  have hd2 : t.day < 10 ^ 2 := by
    have := daysInMonth_le31 t.year t.month
    norm_num; omega
  have hh2 : t.hour < 10 ^ 2 := by norm_num; omega
  have hmi2 : t.minute < 10 ^ 2 := by norm_num; omega
  have hs2 : t.second < 10 ^ 2 := by norm_num; omega
  have hus6 : t.micro < 10 ^ 6 := by norm_num; omega
  rw [isoCore] at hc
  by_cases hm : t.micro = 0
  · rw [if_pos hm] at hc
    simp only [List.append_nil, List.nil_append, List.mem_append, List.mem_cons,
      List.not_mem_nil, or_false] at hc
    rcases hc with hc | hc | hc | hc | hc | hc | hc | hc | hc | hc | hc <;>
      first
        | exact hpad hy4 hc
        | exact hpad hmo2 hc
        | exact hpad hd2 hc
        | exact hpad hh2 hc
        | exact hpad hmi2 hc
        | exact hpad hs2 hc
        | (subst hc; decide)
  · rw [if_neg hm] at hc
    simp only [List.append_nil, List.nil_append, List.mem_append, List.mem_cons,
      List.not_mem_nil, or_false] at hc
    rcases hc with hc | hc | hc | hc | hc | hc | hc | hc | hc | hc | hc | hc | hc <;>
      first
        | exact hpad hy4 hc
        | exact hpad hmo2 hc
        | exact hpad hd2 hc
        | exact hpad hh2 hc
        | exact hpad hmi2 hc
        | exact hpad hs2 hc
        | exact hpad hus6 hc
        | (subst hc; decide)

/-- Every character of the rendered timestamp has code point at most 90. -/
theorem isoChars_le90 {t : DateTime} (hv : ValidDT t) : ∀ c ∈ isoChars t, c.toNat ≤ 90 := by
  intro c hc
  have hsplit : isoChars t = isoCore t [] ++ ['Z'] := by
    simp [isoChars, isoCore, List.append_assoc]
  rw [hsplit, List.mem_append, List.mem_singleton] at hc
  rcases hc with hc | hc
  · exact le_trans (isoCore_nil_le84 hv c hc) (by norm_num)
  · subst hc; decide

theorem replaceZ_append (l r : List Char) : replaceZ (l ++ r) = replaceZ l ++ replaceZ r := by
  simp [replaceZ, List.flatMap_append]

theorem replaceZ_of_no_Z {l : List Char} (h : ∀ c ∈ l, c ≠ 'Z') : replaceZ l = l := by
  induction l with
  | nil => simp [replaceZ]
  | cons c rest ih =>
    rw [replaceZ, List.flatMap_cons, if_neg (h c (List.mem_cons_self c rest))]
    have := ih (fun c hc => h c (List.mem_cons_of_mem _ hc))
    rw [replaceZ] at this
    rw [this]
    rfl

/-- The textual `replace("Z", "+00:00")` turns the rendered `Z`-suffixed
timestamp into a `+00:00`-suffixed one (the body contains no other `Z`). -/
theorem replaceZ_isoChars {t : DateTime} (hv : ValidDT t) :
    replaceZ (isoChars t) = isoCore t ['+', '0', '0', ':', '0', '0'] := by
  have hnoZ : ∀ c ∈ isoCore t [], c ≠ 'Z' := by
    intro c hc hZ
    have h84 := isoCore_nil_le84 hv c hc
    have hZ90 : ('Z').toNat = 90 := by decide
    subst hZ
    omega
  have hsplit : isoChars t = isoCore t [] ++ ['Z'] := by
    simp [isoChars, isoCore, List.append_assoc]
  have hsplit2 : isoCore t ['+', '0', '0', ':', '0', '0']
      = isoCore t [] ++ ['+', '0', '0', ':', '0', '0'] := by
    simp [isoCore, List.append_assoc]
  rw [hsplit, replaceZ_append, replaceZ_of_no_Z hnoZ, hsplit2]
  rfl

/-! ### Parsing inverts rendering -/

theorem pFrac_dot (l : List Char) : pFrac ('.' :: l) = pDigits 6 l := rfl

theorem pFrac_off : pFrac ['+', '0', '0', ':', '0', '0']
    = some (0, ['+', '0', '0', ':', '0', '0']) := by decide

theorem pOffset_utc : pOffset ['+', '0', '0', ':', '0', '0'] = some (some 0) := by decide

/-- `fromisoformat` recovers exactly the components that were rendered
(with the `+00:00` offset read back as UTC). -/
theorem fromisoformat_isoCore {t : DateTime} (hv : ValidDT t) (htz : t.tzMin = some 0) :
    fromisoformat (isoCore t ['+', '0', '0', ':', '0', '0']) = some t := by
  obtain ⟨y, mo, d, h, mi, s, us, tz⟩ := t
  obtain ⟨hy1, hy, hmo1, hmo, hd1, hd, hh, hmi, hs, hus⟩ := hv
  simp only [DateTime.year, DateTime.month, DateTime.day, DateTime.hour, DateTime.minute,
    DateTime.second, DateTime.micro] at hy1 hy hmo1 hmo hd1 hd hh hmi hs hus
  try simp only [DateTime.tzMin] at htz
  subst htz
  have hy4 : y < 10 ^ 4 := by norm_num; omega
  have hmo2 : mo < 10 ^ 2 := by norm_num; omega
  have hd2 : d < 10 ^ 2 := by
    have := daysInMonth_le31 y mo
    norm_num
    omega
  have hh2 : h < 10 ^ 2 := by norm_num; omega
  have hmi2 : mi < 10 ^ 2 := by norm_num; omega
  have hs2 : s < 10 ^ 2 := by norm_num; omega
  have hus6 : us < 10 ^ 6 := by norm_num; omega
  rw [isoCore]
  dsimp only
  rw [fromisoformat, pDigits_pad _ hy4]
  dsimp only [Option.bind]
  rw [pChar_cons]
  dsimp only [Option.bind]
  rw [pDigits_pad _ hmo2]
  dsimp only [Option.bind]
  rw [pChar_cons]
  dsimp only [Option.bind]
  rw [pDigits_pad _ hd2]
  dsimp only [Option.bind]
  rw [if_pos (Or.inl rfl)]
  rw [pTime, pDigits_pad _ hh2]
  dsimp only [Option.bind]
  rw [pChar_cons]
  dsimp only [Option.bind]
  rw [pDigits_pad _ hmi2]
  dsimp only [Option.bind]
  rw [pChar_cons]
  dsimp only [Option.bind]
  rw [pDigits_pad _ hs2]
  dsimp only [Option.bind]
  by_cases hm : us = 0
  · subst hm
    rw [if_pos rfl, List.nil_append, pFrac_off]
    dsimp only [Option.bind]
    rw [pOffset_utc]
    dsimp only [Option.bind]
    rw [mkValid, if_pos ⟨hy1, hy, hmo1, hmo, hd1, hd, hh, hmi, hs, hus⟩]
  · rw [if_neg hm, List.cons_append, pFrac_dot, pDigits_pad _ hus6]
    dsimp only [Option.bind]
    rw [pOffset_utc]
    dsimp only [Option.bind]
    rw [mkValid, if_pos ⟨hy1, hy, hmo1, hmo, hd1, hd, hh, hmi, hs, hus⟩]

/-! ### Base64 round trip -/

theorem b64Val_char : ∀ i < 64, b64Val (b64Char i) = some i := by decide

theorem b64Char_ne_pad : ∀ i < 64, b64Char i ≠ '=' := by decide

theorem b64Char_keep : ∀ i < 64, b64Keep (b64Char i) = true := by decide

theorem b64encode_keep (l : List Nat) (hl : ∀ b ∈ l, b < 256) :
    ∀ x ∈ b64encode l, b64Keep x = true := by
  induction l using b64encode.induct with
  | case1 a b c rest ih =>
    have ha : a < 256 := hl a (by simp)
    have hb : b < 256 := hl b (by simp)
    have hc : c < 256 := hl c (by simp)
    intro x hx
    rw [b64encode] at hx
    simp only [List.mem_cons] at hx
    rcases hx with hx | hx | hx | hx | hx
    all_goals first
      | (subst hx; apply b64Char_keep; omega)
      | exact ih (fun y hy => hl y (by simp [hy])) x hx
  | case2 a b =>
    have ha : a < 256 := hl a (by simp)
    have hb : b < 256 := hl b (by simp)
    intro x hx
    rw [b64encode] at hx
    simp only [List.mem_cons, List.not_mem_nil, or_false] at hx
    rcases hx with hx | hx | hx | hx
    all_goals first
      | (subst hx; apply b64Char_keep; omega)
      | (subst hx; decide)
  | case3 a =>
    have ha : a < 256 := hl a (by simp)
    intro x hx
    rw [b64encode] at hx
    simp only [List.mem_cons, List.not_mem_nil, or_false] at hx
    rcases hx with hx | hx | hx | hx
    all_goals first
      | (subst hx; apply b64Char_keep; omega)
      | (subst hx; decide)
  | case4 => intro x hx; simp [b64encode] at hx

theorem b64encode_len (l : List Nat) : (b64encode l).length % 4 = 0 := by
  induction l using b64encode.induct with
  | case1 a b c rest ih => simp [b64encode]; omega
  | case2 a b => simp [b64encode]
  | case3 a => simp [b64encode]
  | case4 => simp [b64encode]

theorem b64Groups_encode (l : List Nat) (hl : ∀ b ∈ l, b < 256) :
    b64Groups (b64encode l) = some l := by
  induction l using b64encode.induct with
  | case1 a b c rest ih =>
    have ha : a < 256 := hl a (by simp)
    have hb : b < 256 := hl b (by simp)
    have hc : c < 256 := hl c (by simp)
    rw [b64encode, b64Groups,
      b64Val_char (a / 4) (by omega),
      b64Val_char (a % 4 * 16 + b / 16) (by omega),
      b64Val_char (b % 16 * 4 + c / 64) (by omega),
      b64Val_char (c % 64) (by omega),
      ih (fun x hx => hl x (by simp [hx]))]
    dsimp only
    rw [if_neg (b64Char_ne_pad _ (by omega)), if_neg (b64Char_ne_pad _ (by omega))]
    have e1 : a / 4 * 4 + (a % 4 * 16 + b / 16) / 16 = a := by omega
    have e2 : (a % 4 * 16 + b / 16) % 16 * 16 + (b % 16 * 4 + c / 64) / 4 = b := by omega
    have e3 : (b % 16 * 4 + c / 64) % 4 * 64 + c % 64 = c := by omega
    rw [e1, e2, e3]
  | case2 a b =>
    have ha : a < 256 := hl a (by simp)
    have hb : b < 256 := hl b (by simp)
    rw [b64encode, b64Groups,
      b64Val_char (a / 4) (by omega),
      b64Val_char (a % 4 * 16 + b / 16) (by omega),
      b64Val_char (b % 16 * 4) (by omega)]
    dsimp only
    rw [if_neg (b64Char_ne_pad _ (by omega))]
    have e1 : a / 4 * 4 + (a % 4 * 16 + b / 16) / 16 = a := by omega
    have e2 : (a % 4 * 16 + b / 16) % 16 * 16 + (b % 16 * 4) / 4 = b := by omega
    simp
    omega
  | case3 a =>
    have ha : a < 256 := hl a (by simp)
    rw [b64encode, b64Groups,
      b64Val_char (a / 4) (by omega),
      b64Val_char (a % 4 * 16) (by omega)]
    dsimp only
    have e1 : a / 4 * 4 + (a % 4 * 16) / 16 = a := by omega
    simp
    omega
  | case4 => rw [b64encode, b64Groups]

/-- `urlsafe_b64decode` inverts `urlsafe_b64encode` on byte strings. -/
theorem b64decode_encode (l : List Nat) (hl : ∀ b ∈ l, b < 256) :
    b64decode (b64encode l) = some l := by
  have hk : (b64encode l).filter b64Keep = b64encode l :=
    List.filter_eq_self.mpr (b64encode_keep l hl)
  simp only [b64decode]
  rw [hk, if_pos (b64encode_len l)]
  exact b64Groups_encode l hl

/-! ### Splitting the payload at the separator -/

theorem splitBar_append {l : List Nat} (r : List Nat) (hl : ∀ b ∈ l, b ≠ 124) :
    splitBar (l ++ 124 :: r) = some (l, r) := by
  induction l with
  | nil => simp [splitBar]
  | cons a rest ih =>
    rw [List.cons_append, splitBar, if_neg (hl a (by simp)),
      ih (fun b hb => hl b (List.mem_cons_of_mem _ hb))]
    rfl

/-! ### The cursor round trip -/

theorem utcNormalize_tz (t : DateTime) : (utcNormalize t).tzMin = some 0 := by
  unfold utcNormalize astimezoneUTC
  by_cases h : t.tzMin = none
  · rw [if_pos h]
    dsimp only
    rw [if_pos rfl]
  · rw [if_neg h]
    by_cases h0 : t.tzMin = some 0
    · rw [if_pos h0]
      exact h0
    · rw [if_neg h0]
      rfl

theorem pad_length (k n : Nat) : (pad k n).length = k := by
  induction k generalizing n with
  | zero => rfl
  | succ k ih => simp [pad, ih]

theorem isoChars_split (t : DateTime) : isoChars t = isoCore t [] ++ ['Z'] := by
  simp [isoChars, isoCore, List.append_assoc]

theorem isoChars_length (t : DateTime) :
    (isoChars t).length = if t.micro = 0 then 20 else 27 := by
  by_cases hm : t.micro = 0 <;>
    simp [isoChars, isoCore, hm, pad_length]

/-- C1: `decode_cursor` inverts `encode_cursor`, recovering the UTC-normalised
timestamp and the identifier bytes; the rendered timestamp ends in the `Z`
marker and carries a fractional part exactly when the microsecond component is
non-zero (length 27 instead of 20). -/
theorem C1_cursor_roundtrip (t : DateTime) (pid : List Nat)
    (hv : ValidDT (utcNormalize t)) (hpid : ∀ b ∈ pid, b < 256) :
    decode_cursor (encode_cursor t pid) = some (utcNormalize t, pid)
    ∧ (iso_utc t).getLast? = some 'Z'
    ∧ (iso_utc t).length = (if (utcNormalize t).micro = 0 then 20 else 27) := by
  refine ⟨?_, ?_, ?_⟩
  · have hiso90 := isoChars_le90 hv
    have hbytes : ∀ b ∈ (iso_utc t).map Char.toNat ++ 124 :: pid, b < 256 := by
      intro b hb
      rw [List.mem_append, List.mem_cons, List.mem_map] at hb
      rcases hb with ⟨c, hc, rfl⟩ | rfl | hb
      · have := hiso90 c hc
        omega
      · omega
      · exact hpid b hb
    have hno124 : ∀ b ∈ (iso_utc t).map Char.toNat, b ≠ 124 := by
      intro b hb
      rw [List.mem_map] at hb
      obtain ⟨c, hc, rfl⟩ := hb
      have := hiso90 c hc
      omega
    rw [decode_cursor, decodeCursorE, encode_cursor, b64decode_encode _ hbytes]
    dsimp only
    rw [splitBar_append pid hno124]
    dsimp only
    have hchars : ((iso_utc t).map Char.toNat).map Char.ofNat = iso_utc t := by
      rw [List.map_map]
      exact List.map_congr_left (fun c _ => Char.ofNat_toNat c) |>.trans (List.map_id _)
    rw [hchars]
    show Except.toOption (match fromisoformat (replaceZ (iso_utc t)) with
      | none => Except.error PyError.valueError
      | some dt => Except.ok (dt, pid)) = some (utcNormalize t, pid)
    rw [iso_utc, replaceZ_isoChars hv, fromisoformat_isoCore hv (utcNormalize_tz t)]
    rfl
  · rw [iso_utc, isoChars_split]
    exact List.getLast?_concat _
  · rw [iso_utc, isoChars_length]

/-- Witness for C1 at a concrete aware timestamp with a non-zero UTC offset
(+05:30) and a non-zero microsecond field, identifier bytes `"p1"`. -/
theorem C1_cursor_roundtrip_witness :
    decode_cursor (encode_cursor ⟨2020, 6, 2, 15, 30, 5, 123456, some 330⟩ [112, 49])
      = some (utcNormalize ⟨2020, 6, 2, 15, 30, 5, 123456, some 330⟩, [112, 49]) :=
  (C1_cursor_roundtrip ⟨2020, 6, 2, 15, 30, 5, 123456, some 330⟩ [112, 49]
    (by decide) (by decide)).1


/-! ### Insertion sort is a permutation -/

theorem insertOrd_perm (le : A → A → Bool) (x : A) (l : List A) :
    (insertOrd le x l).Perm (x :: l) := by
  induction l with
  | nil => exact List.Perm.refl _
  | cons y ys ih =>
    rw [insertOrd]
    by_cases h : le x y = true
    · rw [if_pos h]
    · rw [if_neg h]
      exact (List.Perm.cons y ih).trans (List.Perm.swap x y ys)

theorem sortOrd_perm (le : A → A → Bool) (l : List A) : (sortOrd le l).Perm l := by
  induction l with
  | nil => exact List.Perm.refl _
  | cons x xs ih =>
    rw [sortOrd]
    exact (insertOrd_perm le x (sortOrd le xs)).trans (List.Perm.cons x ih)

theorem sortPairs_perm (ps : List (Nat × A)) : (sortPairs ps).Perm ps :=
  sortOrd_perm _ ps

/-! ### Conservation of the date hierarchy through the accumulation -/

theorem bumpDay_total (k : Nat) (ds : DayMap) : dayTotal (bumpDay k ds) = dayTotal ds + 1 := by
  induction ds with
  | nil => simp [bumpDay, dayTotal]
  | cons e rest ih =>
    obtain ⟨d, c⟩ := e
    rw [bumpDay]
    by_cases h : d = k
    · rw [if_pos h]
      simp [dayTotal]
      omega
    · rw [if_neg h]
      simp [dayTotal] at ih ⊢
      omega

theorem bumpMonth_ok (m d : Nat) (ms : MonthMap) (h : monthsOk ms) :
    monthsOk (bumpMonth m d ms) ∧ monthTotal (bumpMonth m d ms) = monthTotal ms + 1 := by
  induction ms with
  | nil =>
    constructor
    · intro e he
      simp [bumpMonth] at he
      subst he
      simp [dayTotal]
    · simp [bumpMonth, monthTotal]
  | cons e rest ih =>
    obtain ⟨m', c, days⟩ := e
    have hhead : c = dayTotal days := h _ (List.mem_cons_self _ _)
    have htail : monthsOk rest := fun e he => h e (List.mem_cons_of_mem _ he)
    rw [bumpMonth]
    by_cases hm : m' = m
    · rw [if_pos hm]
      constructor
      · intro e he
        rw [List.mem_cons] at he
        rcases he with rfl | he
        · simpa [bumpDay_total] using hhead
        · exact htail e he
      · simp [monthTotal]
        omega
    · rw [if_neg hm]
      obtain ⟨ihok, ihtot⟩ := ih htail
      constructor
      · intro e he
        rw [List.mem_cons] at he
        rcases he with rfl | he
        · exact hhead
        · exact ihok e he
      · simp [monthTotal] at ihtot ⊢
        omega

theorem bumpYear_ok (y m d : Nat) (ys : YearMap) (h : yearsOk ys) :
    yearsOk (bumpYear y m d ys) ∧ yearTotal (bumpYear y m d ys) = yearTotal ys + 1 := by
  induction ys with
  | nil =>
    constructor
    · intro e he
      simp [bumpYear] at he
      subst he
      refine ⟨by simp [monthTotal, dayTotal], ?_⟩
      intro e he
      simp at he
      subst he
      simp [dayTotal]
    · simp [bumpYear, yearTotal]
  | cons e rest ih =>
    obtain ⟨y', c, ms⟩ := e
    have hhead := h _ (List.mem_cons_self _ _)
    have htail : yearsOk rest := fun e he => h e (List.mem_cons_of_mem _ he)
    rw [bumpYear]
    by_cases hy : y' = y
    · rw [if_pos hy]
      obtain ⟨hmok, hmtot⟩ := bumpMonth_ok m d ms hhead.2
      constructor
      · intro e he
        rw [List.mem_cons] at he
        rcases he with rfl | he
        · exact ⟨by simp [hmtot, ← hhead.1], hmok⟩
        · exact htail e he
      · simp [yearTotal]
        omega
    · rw [if_neg hy]
      obtain ⟨ihok, ihtot⟩ := ih htail
      constructor
      · intro e he
        rw [List.mem_cons] at he
        rcases he with rfl | he
        · exact hhead
        · exact ihok e he
      · simp [yearTotal] at ihtot ⊢
        omega

theorem dateAccum_ok (rows : List (Option DateTime)) :
    yearsOk (dateAccum rows)
    ∧ yearTotal (dateAccum rows) = (rows.filter Option.isSome).length := by
  suffices h : ∀ acc, yearsOk acc →
      yearsOk (rows.foldl (fun acc o =>
        match o with
        | none => acc
        | some ts => bumpYear ts.year ts.month ts.day acc) acc)
      ∧ yearTotal (rows.foldl (fun acc o =>
        match o with
        | none => acc
        | some ts => bumpYear ts.year ts.month ts.day acc) acc)
        = yearTotal acc + (rows.filter Option.isSome).length by
    have := h [] (by intro e he; simp at he)
    simpa [dateAccum, yearTotal] using this
  induction rows with
  | nil =>
    intro acc hacc
    simp
    exact hacc
  | cons o rest ih =>
    intro acc hacc
    match o with
    | none =>
      have := ih acc hacc
      simpa using this
    | some ts =>
      obtain ⟨hok, htot⟩ := bumpYear_ok ts.year ts.month ts.day acc hacc
      have := ih _ hok
      rw [List.foldl_cons]
      refine ⟨this.1, ?_⟩
      rw [this.2, htot]
      simp
      omega

/-- C6: date-hierarchy conservation — in every produced date facet each year
count is the sum of its month counts and each month count the sum of its day
counts; the facet total counts exactly the rows with a valid timestamp, while
the primary filtered population (empty filter) keeps every record regardless
of its timestamp. -/
theorem C6_date_hierarchy_conservation (rows : List (Option DateTime)) (db : DB) :
    (∀ yn ∈ date_facet rows,
        yn.count = (yn.months.map MonthNode.count).sum
        ∧ ∀ mn ∈ yn.months, mn.count = (mn.days.map DayNode.count).sum)
    ∧ ((date_facet rows).map YearNode.count).sum = (rows.filter Option.isSome).length
    ∧ get_filtered_photo_ids db {} none = db.photos.map PhotoRow.photo_id := by
  obtain ⟨hok, htot⟩ := dateAccum_ok rows
  refine ⟨?_, ?_, ?_⟩
  · intro yn hyn
    rw [date_facet, List.mem_map] at hyn
    obtain ⟨ye, hye, rfl⟩ := hyn
    have hye' : ye ∈ dateAccum rows := (sortPairs_perm (dateAccum rows)).mem_iff.mp hye
    obtain ⟨hcnt, hmok⟩ := hok ye hye'
    constructor
    · dsimp only
      rw [List.map_map]
      show ye.2.1 = (List.map (fun me => me.2.1) (sortPairs ye.2.2)).sum
      simp only [monthTotal] at hcnt
      exact hcnt.trans
        (List.Perm.sum_eq ((sortPairs_perm ye.2.2).map (fun me => me.2.1))).symm
    · intro mn hmn
      dsimp only at hmn
      rw [List.mem_map] at hmn
      obtain ⟨me, hme, rfl⟩ := hmn
      have hme' : me ∈ ye.2.2 := (sortPairs_perm ye.2.2).mem_iff.mp hme
      have hd := hmok me hme'
      dsimp only
      rw [List.map_map]
      show me.2.1 = (List.map (fun de => de.2) (sortPairs me.2.2)).sum
      simp only [dayTotal] at hd
      exact hd.trans
        (List.Perm.sum_eq ((sortPairs_perm me.2.2).map (fun de => de.2))).symm
  · rw [date_facet, List.map_map]
    show (List.map (fun ye => ye.2.1) (sortPairs (dateAccum rows))).sum
      = (rows.filter Option.isSome).length
    simp only [yearTotal] at htot
    exact (List.Perm.sum_eq
      ((sortPairs_perm (dateAccum rows)).map (fun ye => ye.2.1))).trans htot
  · have h : ∀ r ∈ db.photos, photoMatches db {} none r = true := fun r _ => rfl
    rw [get_filtered_photo_ids, apply_filters, List.filter_eq_self.mpr h]

/-- C7: people-facet deduplication — inserting a duplicate face annotation
(same photo, same person, already present) leaves the whole people facet
unchanged, and every produced entry has a truthy (non-null, non-empty)
person identifier. -/
theorem C7_people_facet_dedup (faces : List FaceRow) (ids : List (List Nat)) (fr : FaceRow)
    (hdup : fr ∈ faces) :
    people_facet (fr :: faces) ids = people_facet faces ids
    ∧ ∀ e ∈ people_facet faces ids, truthyStr e.1 = true := by
  constructor
  · simp only [people_facet]
    by_cases hin : (ids.contains fr.photo_id) = true
    · rw [List.filter_cons, if_pos hin]
      have hfr_rel : fr ∈ faces.filter (fun fr => ids.contains fr.photo_id) :=
        List.mem_filter.mpr ⟨hdup, hin⟩
      rw [List.map_cons, List.dedup_cons_of_mem (List.mem_map_of_mem _ hfr_rel)]
      refine congrArg _ (List.map_congr_left ?_)
      intro p hp
      by_cases hpp : (fr.person_id == p) = true
      · rw [List.filter_cons, if_pos hpp, List.map_cons]
        have hmem : fr.photo_id ∈
            ((faces.filter (fun fr => ids.contains fr.photo_id)).filter
              (fun x => x.person_id == p)).map (·.photo_id) :=
          List.mem_map_of_mem _ (List.mem_filter.mpr ⟨hfr_rel, hpp⟩)
        rw [List.dedup_cons_of_mem hmem]
      · rw [List.filter_cons, if_neg hpp]
    · rw [List.filter_cons, if_neg hin]
  · intro e he
    simp only [people_facet] at he
    exact (List.mem_filter.mp he).2

/-- Witness for C7: a record with two identical annotations of person `A`
counts once. -/
theorem C7_people_facet_dedup_witness :
    people_facet [⟨[1], some ['A']⟩, ⟨[1], some ['A']⟩] [[1]]
      = people_facet [⟨[1], some ['A']⟩] [[1]] :=
  (C7_people_facet_dedup [⟨[1], some ['A']⟩] [[1]] ⟨[1], some ['A']⟩ (by decide)).1

/-- C8: the filesize ranges are half-open `[lo, hi)` with the canonical
contiguous bounds; 1 000 000 is medium (not small) and 5 000 000 is large
(not medium). -/
theorem C8_filesize_halfopen :
    (∀ fs : Int,
      (filesizeOk (some .small) fs = true ↔ 0 ≤ fs ∧ fs < 1000000)
      ∧ (filesizeOk (some .medium) fs = true ↔ 1000000 ≤ fs ∧ fs < 5000000)
      ∧ (filesizeOk (some .large) fs = true ↔ 5000000 ≤ fs ∧ fs < 10000000000))
    ∧ (filesizeOk (some .medium) 1000000 = true ∧ filesizeOk (some .small) 1000000 = false)
    ∧ (filesizeOk (some .large) 5000000 = true ∧ filesizeOk (some .medium) 5000000 = false) := by
  refine ⟨?_, by decide, by decide⟩
  intro fs
  refine ⟨?_, ?_, ?_⟩ <;>
    simp [filesizeOk, FilesizeRange.bounds]

/-- C9 (amended): with the default descending direction, a relevance-sorted
search is identical to the same search sorted by `shot_ts` descending, for
every database, filter, page and text query. -/
theorem C9_relevance_desc_equiv (db : DB) (f : SearchFilters) (page : PageSpec)
    (q : Option (List Char)) :
    search_photos db f ⟨.relevance, .desc⟩ page q
      = search_photos db f ⟨.shot_ts, .desc⟩ page q := rfl

/-- C9 (counterexample): with `dir = asc`, the relevance sort still orders
descending but the cursor continuation follows the ascending direction, so the
page after a cursor differs from the `shot_ts` descending search. -/
theorem C9_relevance_asc_counterexample :
    search_photos dbPair {} ⟨.relevance, .asc⟩ ⟨some 10, some cursorJan1⟩ none
      ≠ search_photos dbPair {} ⟨.shot_ts, .desc⟩ ⟨some 10, some cursorJan1⟩ none := by decide

/-- C10: the effective fetch limit is `page.limit or 50` — absent and zero
fall back to 50, any non-zero caller value is used as given (no upper cap). -/
theorem C10_effective_limit :
    (∀ c, effectiveLimit ⟨none, c⟩ = 50)
    ∧ (∀ c, effectiveLimit ⟨some 0, c⟩ = 50)
    ∧ ∀ (n : Int) (c : Option (List Char)), n ≠ 0 → effectiveLimit ⟨some n, c⟩ = n := by
  refine ⟨fun c => rfl, fun c => rfl, ?_⟩
  intro n c hn
  simp [effectiveLimit, hn]

/-- Witness for C10: a caller-supplied limit of 1 000 000 is used unchanged. -/
theorem C10_effective_limit_witness : effectiveLimit ⟨some 1000000, none⟩ = 1000000 :=
  C10_effective_limit.2.2 1000000 none (by decide)

/-- C2 (counterexample): in the 3-record scenario, page 2 returns the 06-01
record together with a NON-null cursor (encoding that record), not the null
cursor the claim asserts — `_generate_cursor` emits a cursor whenever the page
is non-empty. -/
theorem C2_page2_cursor_not_null :
    (search_photos dbScenario {} sortDesc ⟨some 2, some cursor0602⟩ none).2
      = .ok ([hydrateRow dbScenario (mkPhoto [112, 49] ts0601 ['a'] ['x'])], 3, some cursor0601)
    ∧ some cursor0601 ≠ (none : Option (List Char)) := by
  exact ⟨by decide, by decide⟩

/-- C2 (amended): page 1 is [07-01, 06-02] with a cursor; page 2 with that
cursor is [06-01] with a further (non-null) cursor; a third request with that
cursor returns an empty page with a null cursor; the date facet counts are
2020 ↦ 3, June ↦ 2, July ↦ 1. -/
theorem C2_keyset_scenario :
    (search_photos dbScenario {} sortDesc ⟨some 2, none⟩ none).2
      = .ok ([hydrateRow dbScenario (mkPhoto [112, 51] ts0701 ['c'] ['z']),
              hydrateRow dbScenario (mkPhoto [112, 50] ts0602 ['b'] ['y'])], 3, some cursor0602)
    ∧ (search_photos dbScenario {} sortDesc ⟨some 2, some cursor0602⟩ none).2
      = .ok ([hydrateRow dbScenario (mkPhoto [112, 49] ts0601 ['a'] ['x'])], 3, some cursor0601)
    ∧ (search_photos dbScenario {} sortDesc ⟨some 2, some cursor0601⟩ none).2 = .ok ([], 3, none)
    ∧ date_facet (dateFacetRows dbScenario (get_filtered_photo_ids dbScenario {} none))
      = [⟨2020, 3, [⟨6, 2, [⟨1, 1⟩, ⟨2, 1⟩]⟩, ⟨7, 1, [⟨1, 1⟩]⟩]⟩] := by
  exact ⟨by decide, by decide, by decide, by decide⟩

/-- C3: a cursor that decodes to garbage (`"*"`: empty after base64 filtering,
so no `|` separator) makes `search_photos` fail with a plain `ValueError` —
there is no `MalformedCursor` domain error — and only after the count query
has already been executed. -/
theorem C3_malformed_cursor_after_count :
    search_photos dbScenario {} sortDesc ⟨some 50, some ['*']⟩ none
      = ([.countQuery], .error .valueError)
    ∧ decodeCursorE ['*'] = .error .valueError := by
  exact ⟨by decide, by decide⟩

/-- C4: no cardinality cap exists anywhere in the filter compiler — a tags
filter with 101 values is compiled and executed normally, returning the
matching record instead of failing with `FilterTooLarge`. -/
theorem C4_no_cardinality_cap :
    tags101.length = 101
    ∧ get_filtered_photo_ids dbTagged { tags := some tags101 } none = [[112, 49]] := by
  exact ⟨by decide, by decide⟩

/-- C5 (counterexample): `PhotosRepository.compute_facets` has no `try`/
`except` — the first failing facet computation aborts the whole call, so the
response fails instead of substituting an empty facet. -/
theorem C5_repo_facet_failure_propagates :
    compute_facets (T := Nat) (D := Nat) (P := Nat) (U := Nat)
      (.ok 1) (.error ['d', 'b']) (.ok 2) (.ok 3) = .error ['d', 'b'] := rfl

/-- C5 (amended): only `FacetRegistry.compute_all_facets` isolates failures —
it always yields one entry per registered facet, the computed value on
success and the facet's empty result on failure. -/
theorem C5_registry_isolation {A : Type} (fs : List (FacetSpec A)) (ids : List (List Nat)) :
    (compute_all_facets fs ids).map Prod.fst = fs.map FacetSpec.name
    ∧ (∀ f ∈ fs, ∀ e, f.compute ids = .error e →
        (f.name, f.emptyResult) ∈ compute_all_facets fs ids)
    ∧ (∀ f ∈ fs, ∀ r, f.compute ids = .ok r →
        (f.name, r) ∈ compute_all_facets fs ids) := by
  refine ⟨?_, ?_, ?_⟩
  · rw [compute_all_facets, List.map_map]
    rfl
  · intro f hf e he
    have hm : (f.name, match f.compute ids with
        | .ok r => r
        | .error _ => f.emptyResult) ∈ compute_all_facets fs ids :=
      List.mem_map_of_mem _ hf
    rw [he] at hm
    exact hm
  · intro f hf r hr
    have hm : (f.name, match f.compute ids with
        | .ok r => r
        | .error _ => f.emptyResult) ∈ compute_all_facets fs ids :=
      List.mem_map_of_mem _ hf
    rw [hr] at hm
    exact hm

/-- Witness for C5: a registry with a failing date facet and a succeeding tags
facet yields the empty substitute for the first and the real value for the
second. -/
theorem C5_registry_isolation_witness :
    (['d'], 0) ∈ compute_all_facets
        [⟨['d'], fun _ => .error ['x'], 0⟩, ⟨['t'], fun _ => .ok 7, 0⟩] []
    ∧ (['t'], 7) ∈ compute_all_facets
        [⟨['d'], fun _ => .error ['x'], 0⟩, ⟨['t'], fun _ => .ok 7, 0⟩] [] :=
  ⟨(C5_registry_isolation
      [⟨['d'], fun _ => .error ['x'], 0⟩, ⟨['t'], fun _ => .ok 7, 0⟩] []).2.1
      ⟨['d'], fun _ => .error ['x'], 0⟩ (by simp) ['x'] rfl,
   (C5_registry_isolation
      [⟨['d'], fun _ => .error ['x'], 0⟩, ⟨['t'], fun _ => .ok 7, 0⟩] []).2.2
      ⟨['t'], fun _ => .ok 7, 0⟩ (by simp) 7 rfl⟩

/-- Witness for C6 at a concrete row list (two valid timestamps in different
months, one missing timestamp): the root total counts only the valid rows,
and the single year node's count equals the sum of its month counts. -/
theorem C6_date_hierarchy_conservation_witness :
    ((date_facet [some ts0601, some ts0701, none]).map YearNode.count).sum
      = ([some ts0601, some ts0701, none].filter Option.isSome).length
    ∧ (⟨2020, 2, [⟨6, 1, [⟨1, 1⟩]⟩, ⟨7, 1, [⟨1, 1⟩]⟩]⟩ : YearNode).count
      = (([⟨6, 1, [⟨1, 1⟩]⟩, ⟨7, 1, [⟨1, 1⟩]⟩] : List MonthNode).map MonthNode.count).sum :=
  ⟨(C6_date_hierarchy_conservation [some ts0601, some ts0701, none] dbScenario).2.1,
   ((C6_date_hierarchy_conservation [some ts0601, some ts0701, none] dbScenario).1
      ⟨2020, 2, [⟨6, 1, [⟨1, 1⟩]⟩, ⟨7, 1, [⟨1, 1⟩]⟩]⟩ (by decide)).1⟩

end PhotoOrg
